import Mathlib

/-
Verification of the NanaSQLite storage core (src/src/nanasqlite/core.py)
against its natural-language specification.

The embedding models the `NanaSQLite` class as a pure state machine.
Python values that can be stored are modelled by `PyVal`; JSON
serialization (`json.dumps` / `json.loads`) round-trips on every
JSON-serializable tree, so the model stores the decoded tree directly in
the table and records serializability as a predicate (`json.dumps` raises
`TypeError` exactly on non-serializable objects, modelled by `PyVal.obj`).
A crucial quirk is kept: `json.loads "null"` is Python `None`, which
`_read_from_db` / `_ensure_cached` cannot distinguish from a missing row.

SQLite connection state is modelled by `DBConn`: a committed table plus an
optional pending transaction view (`BEGIN IMMEDIATE` copies the committed
view; statements inside a transaction act on the pending view; `COMMIT`
publishes it; `ROLLBACK` discards it).
-/

set_option autoImplicit false

namespace NanaSQLite

/-- Python values storable in the mapping: the JSON tree constructors plus
`obj`, an arbitrary non-JSON-serializable Python object (identified by a tag). -/
inductive PyVal where
  | none
  | bool (b : Bool)
  | int (n : Int)
  | str (s : String)
  | list (xs : List PyVal)
  | dict (kvs : List (String × PyVal))
  | obj (tag : Nat)

mutual

/-- Whether `json.dumps` succeeds on the value (no embedded non-serializable object). -/
def serializable : PyVal → Bool
  | PyVal.none => true
  | PyVal.bool _ => true
  | PyVal.int _ => true
  | PyVal.str _ => true
  | PyVal.list xs => serializableL xs
  | PyVal.dict kvs => serializableD kvs
  | PyVal.obj _ => false

/-- Serializability of every element of a list. -/
def serializableL : List PyVal → Bool
  | [] => true
  | v :: rest => serializable v && serializableL rest

/-- Serializability of every value of a string-keyed dict. -/
def serializableD : List (String × PyVal) → Bool
  | [] => true
  | (_, v) :: rest => serializable v && serializableD rest

end

/-- Lookup in an association list (Python dict access `d[k]`, as `Option`). -/
def alookup (l : List (String × PyVal)) (k : String) : Option PyVal :=
  match l with
  | [] => Option.none
  | (k1, v1) :: rest => if k1 = k then some v1 else alookup rest k

/-- Python dict assignment `d[k] = v`: replace the binding in place, or append. -/
def aset (l : List (String × PyVal)) (k : String) (v : PyVal) : List (String × PyVal) :=
  match l with
  | [] => [(k, v)]
  | (k1, v1) :: rest => if k1 = k then (k, v) :: rest else (k1, v1) :: aset rest k v

/-- Python dict deletion `del d[k]` / SQL `DELETE ... WHERE key = ?`: drop the binding. -/
def adel (l : List (String × PyVal)) (k : String) : List (String × PyVal) :=
  l.filter (fun kv => kv.1 ≠ k)

/-- Python set `s.add(k)` on a set represented as a duplicate-free list. -/
def kadd (l : List String) (k : String) : List String :=
  if k ∈ l then l else k :: l

/-- Python set `s.discard(k)`. -/
def kdel (l : List String) (k : String) : List String :=
  l.filter (fun x => x ≠ k)

/-- Errors a NanaSQLite operation can surface (the spec's error taxonomy). -/
inductive PyErr where
  | keyError (k : String)
  | typeError
  | valueError (msg : String)
  | engineError
  | validationError (msg : String)
  | closedError (msg : String)
deriving Repr

/-- State of one SQLite connection to the file: the committed rows of the
key/value table, and the pending view of an open explicit transaction. -/
structure DBConn where
  committed : List (String × PyVal)
  txn : Option (List (String × PyVal))

/-- Rows a statement on this connection currently sees (pending view if a
transaction is open, else the committed table). -/
def DBConn.view (db : DBConn) : List (String × PyVal) :=
  match db.txn with
  | some t => t
  | Option.none => db.committed

/-- Effect of an upsert statement: inside a transaction it changes the pending
view only; in autocommit mode it commits immediately. -/
def DBConn.execSet (db : DBConn) (k : String) (v : PyVal) : DBConn :=
  match db.txn with
  | some t => { db with txn := some (aset t k v) }
  | Option.none => { db with committed := aset db.committed k v }

/-- Effect of a `DELETE ... WHERE key = ?` statement, analogous to `execSet`. -/
def DBConn.execDel (db : DBConn) (k : String) : DBConn :=
  match db.txn with
  | some t => { db with txn := some (adel t k) }
  | Option.none => { db with committed := adel db.committed k }

/-- Effect of `DELETE FROM table` (no WHERE): truncate. -/
def DBConn.execClear (db : DBConn) : DBConn :=
  match db.txn with
  | some _ => { db with txn := some [] }
  | Option.none => { db with committed := [] }

/-- Statement `BEGIN IMMEDIATE`: errors if a transaction is already open. -/
def DBConn.begin (db : DBConn) : DBConn × Option PyErr :=
  match db.txn with
  | some _ => (db, some PyErr.engineError)
  | Option.none => ({ db with txn := some db.committed }, Option.none)

/-- Statement `COMMIT`: publish the pending view; errors with no open transaction. -/
def DBConn.commit (db : DBConn) : DBConn × Option PyErr :=
  match db.txn with
  | some t => ({ committed := t, txn := Option.none }, Option.none)
  | Option.none => (db, some PyErr.engineError)

/-- Statement `ROLLBACK`: discard the pending view; errors with no open transaction. -/
def DBConn.rollback (db : DBConn) : DBConn × Option PyErr :=
  match db.txn with
  | some _ => ({ db with txn := Option.none }, Option.none)
  | Option.none => (db, some PyErr.engineError)

/-- State of a `NanaSQLite` handle: the connection, the in-memory cache
(`_data`), the set of cached keys (`_cached_keys`), and the all-loaded flag.
`dbReads` is instrumentation only: it counts calls of `_read_from_db`
(the per-key lazy load), so frame claims about "not hitting the database"
are statable; no source behaviour depends on it. -/
structure St where
  db : DBConn
  data : List (String × PyVal)
  cachedKeys : List String
  allLoaded : Bool
  dbReads : Nat

/-- Constructor `NanaSQLite(db_path, table)` (without `bulk_load`): a fresh
handle on the given on-disk state, with an empty cache. A new connection
sees only committed rows. -/
def openHandle (committed : List (String × PyVal)) : St :=
  { db := { committed := committed, txn := Option.none }
    data := []
    cachedKeys := []
    allLoaded := false
    dbReads := 0 }

/-- A handle freshly opened on an empty database file. -/
def emptySt : St := openHandle []

/-- Method `_write_to_db`: serialize (raising `TypeError` on a
non-serializable value, before any statement runs) then execute the
`INSERT OR REPLACE` upsert. -/
def writeToDb (s : St) (k : String) (v : PyVal) : St × Option PyErr :=
  if serializable v then
    ({ s with db := s.db.execSet k v }, Option.none)
  else
    (s, some PyErr.typeError)

/-- Method `_read_from_db`: `SELECT value ... WHERE key = ?`; returns Python
`None` when the row is missing, else the deserialized value — so a stored
JSON `null` is indistinguishable from a missing row. -/
def readFromDb (s : St) (k : String) : PyVal × St :=
  (match alookup s.db.view k with
   | some v => v
   | Option.none => PyVal.none,
   { s with dbReads := s.dbReads + 1 })

/-- Method `_delete_from_db`: `DELETE ... WHERE key = ?`. -/
def deleteFromDb (s : St) (k : String) : St :=
  { s with db := s.db.execDel k }

/-- Method `_get_all_keys_from_db`: `SELECT key FROM table`. -/
def getAllKeysFromDb (s : St) : List String :=
  s.db.view.map Prod.fst

/-- Method `_ensure_cached`: on a cache miss, lazily load the key from the
database, record the key as cached, and install the value when the read did
not come back as `None`. Returns whether the key exists (per `_data`). -/
def ensureCached (s : St) (k : String) : Bool × St :=
  if k ∈ s.cachedKeys then
    ((alookup s.data k).isSome, s)
  else
    let p := readFromDb s k
    let s2 := { p.2 with cachedKeys := kadd p.2.cachedKeys k }
    match p.1 with
    | PyVal.none => (false, s2)
    | v => (true, { s2 with data := aset s2.data k v })

/-- Method `__getitem__` (`db[key]`): lazy load, then read from memory;
`KeyError` when absent. The state is returned even on error (a raised Python
exception leaves the already-performed mutations in place). -/
def getItem (s : St) (k : String) : St × Except PyErr PyVal :=
  let p := ensureCached s k
  if p.1 then
    match alookup p.2.data k with
    | some v => (p.2, Except.ok v)
    | Option.none => (p.2, Except.error (PyErr.keyError k))
  else
    (p.2, Except.error (PyErr.keyError k))

/-- Method `__setitem__` (`db[key] = value`): memory update first
(`self._data[key] = value`, `self._cached_keys.add(key)`), then the
immediate database write `_write_to_db`. -/
def setItem (s : St) (k : String) (v : PyVal) : St × Option PyErr :=
  let s1 := { s with data := aset s.data k v, cachedKeys := kadd s.cachedKeys k }
  writeToDb s1 k v

/-- Method `__delitem__` (`del db[key]`): ensure existence, delete from the
in-memory dict, re-add the key to `_cached_keys` (marking the deletion as
known), then delete the row. -/
def delItem (s : St) (k : String) : St × Option PyErr :=
  let p := ensureCached s k
  if p.1 then
    let s2 := { p.2 with data := adel p.2.data k, cachedKeys := kadd p.2.cachedKeys k }
    (deleteFromDb s2 k, Option.none)
  else
    (p.2, some (PyErr.keyError k))

/-- Method `__contains__` (`key in db`). -/
def containsItem (s : St) (k : String) : St × Bool :=
  let p := ensureCached s k
  (p.2, p.1)

/-- Method `__len__`: `SELECT COUNT(*)` on the table (authoritative, no cache change). -/
def lenItems (s : St) : St × Nat :=
  (s, s.db.view.length)

/-- Method `keys`: all keys fetched from the database. -/
def keysM (s : St) : St × List String :=
  (s, getAllKeysFromDb s)

/-- Method `load_all`: bulk-load every row into the cache; idempotent via the
`_all_loaded` flag. -/
def loadAll (s : St) : St :=
  if s.allLoaded then s
  else
    let s1 := s.db.view.foldl
      (fun acc kv => { acc with data := aset acc.data kv.1 kv.2,
                                cachedKeys := kadd acc.cachedKeys kv.1 })
      s
    { s1 with allLoaded := true }

/-- Method `values`: bulk load, then snapshot the in-memory values. -/
def valuesM (s : St) : St × List PyVal :=
  let s1 := loadAll s
  (s1, s1.data.map Prod.snd)

/-- Method `items`: bulk load, then snapshot the in-memory pairs. -/
def itemsM (s : St) : St × List (String × PyVal) :=
  let s1 := loadAll s
  (s1, s1.data)

/-- Method `get(key, default)`. -/
def getDefault (s : St) (k : String) (d : PyVal) : St × PyVal :=
  let p := ensureCached s k
  if p.1 then
    match alookup p.2.data k with
    | some v => (p.2, v)
    | Option.none => (p.2, d)
  else
    (p.2, d)

/-- Method `pop(key)` without a default: remove from the in-memory dict
(`_cached_keys` keeps the key), delete the row, return the value. -/
def popM (s : St) (k : String) : St × Except PyErr PyVal :=
  let p := ensureCached s k
  if p.1 then
    match alookup p.2.data k with
    | some v =>
        let s2 := { p.2 with data := adel p.2.data k }
        (deleteFromDb s2 k, Except.ok v)
    | Option.none => (p.2, Except.error (PyErr.keyError k))
  else
    (p.2, Except.error (PyErr.keyError k))

/-- Method `update(mapping)`: a plain loop of `self[key] = value`; an
exception part-way through leaves the earlier writes applied. -/
def updateM (s : St) : List (String × PyVal) → St × Option PyErr
  | [] => (s, Option.none)
  | (k, v) :: rest =>
    match setItem s k v with
    | (s1, Option.none) => updateM s1 rest
    | (s1, some e) => (s1, some e)

/-- Method `clear`: empty the in-memory dict, the cached-key set and the
all-loaded flag, then `DELETE FROM table`. -/
def clearM (s : St) : St :=
  { db := s.db.execClear, data := [], cachedKeys := [], allLoaded := false,
    dbReads := s.dbReads }

/-- Method `setdefault(key, default)`: return the existing value when
`_ensure_cached` finds one, else store the default via `__setitem__`. -/
def setdefaultM (s : St) (k : String) (d : PyVal) : St × Except PyErr PyVal :=
  let p := ensureCached s k
  if p.1 then
    match alookup p.2.data k with
    | some v => (p.2, Except.ok v)
    | Option.none => (p.2, Except.error (PyErr.keyError k))
  else
    match setItem p.2 k d with
    | (s1, Option.none) => (s1, Except.ok d)
    | (s1, some e) => (s1, Except.error e)

/-- Method `refresh(key)` with a key: forget the cached entry, then lazily
reload it. -/
def refreshKey (s : St) (k : String) : St :=
  let s1 := { s with cachedKeys := kdel s.cachedKeys k, data := adel s.data k }
  (ensureCached s1 k).2

/-- Method `refresh()` without a key: drop the whole cache. -/
def refreshAll (s : St) : St :=
  { s with data := [], cachedKeys := [], allLoaded := false }

/-- Method `is_cached(key)`. -/
def isCachedM (s : St) (k : String) : Bool :=
  k ∈ s.cachedKeys

/-- Method `to_dict`: bulk load, then snapshot. -/
def toDictM (s : St) : St × List (String × PyVal) :=
  let s1 := loadAll s
  (s1, s1.data)

/-- Loop body of `batch_update` after `BEGIN IMMEDIATE`: per row, serialize
(may raise `TypeError`), execute the upsert, then update the cache; on an
exception, `ROLLBACK` and re-raise — the cache entries already written in
earlier iterations are not reverted. `COMMIT` when the loop completes. -/
def batchUpdateGo : List (String × PyVal) → St → St × Option PyErr
  | [], s =>
    let q := s.db.commit
    ({ s with db := q.1 }, q.2)
  | (k, v) :: rest, s =>
    if serializable v then
      let s1 := { s with db := s.db.execSet k v }
      let s2 := { s1 with data := aset s1.data k v, cachedKeys := kadd s1.cachedKeys k }
      batchUpdateGo rest s2
    else
      let q := s.db.rollback
      ({ s with db := q.1 }, some PyErr.typeError)

/-- Method `batch_update(mapping)`: `BEGIN IMMEDIATE`, then the row loop. -/
def batchUpdateM (s : St) (mapping : List (String × PyVal)) : St × Option PyErr :=
  let b := s.db.begin
  match b.2 with
  | some e => ({ s with db := b.1 }, some e)
  | Option.none => batchUpdateGo mapping { s with db := b.1 }

/-- Loop body of `batch_delete` after `BEGIN IMMEDIATE`: per key, execute the
delete, pop the cache entry and discard the cached-key mark; `COMMIT` at the
end. -/
def batchDeleteGo : List String → St → St × Option PyErr
  | [], s =>
    let q := s.db.commit
    ({ s with db := q.1 }, q.2)
  | k :: rest, s =>
    let s1 := { s with db := s.db.execDel k }
    let s2 := { s1 with data := adel s1.data k, cachedKeys := kdel s1.cachedKeys k }
    batchDeleteGo rest s2

/-- Method `batch_delete(keys)`: `BEGIN IMMEDIATE`, then the key loop. -/
def batchDeleteM (s : St) (keys : List String) : St × Option PyErr :=
  let b := s.db.begin
  match b.2 with
  | some e => ({ s with db := b.1 }, some e)
  | Option.none => batchDeleteGo keys { s with db := b.1 }

/-- Method `begin_transaction`: `BEGIN IMMEDIATE` on the connection. -/
def beginTransaction (s : St) : St × Option PyErr :=
  let q := s.db.begin
  ({ s with db := q.1 }, q.2)

/-- Method `commit`. -/
def commitM (s : St) : St × Option PyErr :=
  let q := s.db.commit
  ({ s with db := q.1 }, q.2)

/-- Method `rollback`. -/
def rollbackM (s : St) : St × Option PyErr :=
  let q := s.db.rollback
  ({ s with db := q.1 }, q.2)

/-- One statement of a transaction body run under `with db.transaction():` —
either a mapping write `db[k] = v`, or a body raising an arbitrary exception. -/
inductive TxOp where
  | set (k : String) (v : PyVal)
  | raiseErr (e : PyErr)

/-- Sequential execution of a transaction body; stops at the first exception,
which propagates (with the state mutated so far). -/
def runBody : List TxOp → St → St × Option PyErr
  | [], s => (s, Option.none)
  | TxOp.set k v :: rest, s =>
    match setItem s k v with
    | (s1, Option.none) => runBody rest s1
    | (s1, some e) => (s1, some e)
  | TxOp.raiseErr e :: _, s => (s, some e)

/-- The composite `with db.transaction(): body` statement over
`_TransactionContext`: `__enter__` runs `begin_transaction`; `__exit__`
commits when the body finished without an exception and rolls back otherwise,
returning `False` so the original exception is re-raised. -/
def withTransaction (s : St) (body : List TxOp) : St × Option PyErr :=
  let b := beginTransaction s
  match b.2 with
  | some e => (b.1, some e)
  | Option.none =>
    let r := runBody body b.1
    match r.2 with
    | Option.none => commitM r.1
    | some e => ((rollbackM r.1).1, some e)

/-- First exception a transaction body raises, if any. -/
def firstBodyErr : List TxOp → Option PyErr
  | [] => Option.none
  | TxOp.set _ v :: rest =>
      if serializable v then firstBodyErr rest else some PyErr.typeError
  | TxOp.raiseErr e :: _ => some e

/-- Pure effect of a fully successful body on a table. -/
def applyBody (c : List (String × PyVal)) : List TxOp → List (String × PyVal)
  | [] => c
  | TxOp.set k v :: rest => applyBody (aset c k v) rest
  | TxOp.raiseErr _ :: rest => applyBody c rest

/-- Pure effect of `batch_update(mapping)` on the table. -/
def applyUpdates (c : List (String × PyVal)) : List (String × PyVal) → List (String × PyVal)
  | [] => c
  | (k, v) :: rest => applyUpdates (aset c k v) rest

/-- Pure effect of `batch_delete(keys)` on the table. -/
def applyDeletes (c : List (String × PyVal)) : List String → List (String × PyVal)
  | [] => c
  | k :: rest => applyDeletes (adel c k) rest

/-- The operations of the dict-like interface of a handle, as one syntax so
invariants can be stated over every operation at once. -/
inductive Op where
  | set (k : String) (v : PyVal)
  | get (k : String)
  | getDefault (k : String) (d : PyVal)
  | del (k : String)
  | contains (k : String)
  | pop (k : String)
  | update (m : List (String × PyVal))
  | clear
  | setdefault (k : String) (d : PyVal)
  | loadAll
  | values
  | items
  | toDict
  | keys
  | len
  | isCached (k : String)
  | refreshKey (k : String)
  | refreshAll
  | batchUpdate (m : List (String × PyVal))
  | batchDelete (ks : List String)

/-- Error component of an `Except` result. -/
def errOf {α : Type} : Except PyErr α → Option PyErr
  | Except.ok _ => Option.none
  | Except.error e => some e

/-- Dispatcher: run one dict-interface operation, returning the next handle
state and the exception it raised, if any. -/
def stepE (s : St) : Op → St × Option PyErr
  | Op.set k v => setItem s k v
  | Op.get k => let r := getItem s k; (r.1, errOf r.2)
  | Op.getDefault k d => ((getDefault s k d).1, Option.none)
  | Op.del k => delItem s k
  | Op.contains k => ((containsItem s k).1, Option.none)
  | Op.pop k => let r := popM s k; (r.1, errOf r.2)
  | Op.update m => updateM s m
  | Op.clear => (clearM s, Option.none)
  | Op.setdefault k d => let r := setdefaultM s k d; (r.1, errOf r.2)
  | Op.loadAll => (loadAll s, Option.none)
  | Op.values => ((valuesM s).1, Option.none)
  | Op.items => ((itemsM s).1, Option.none)
  | Op.toDict => ((toDictM s).1, Option.none)
  | Op.keys => ((keysM s).1, Option.none)
  | Op.len => ((lenItems s).1, Option.none)
  | Op.isCached _ => (s, Option.none)
  | Op.refreshKey k => (refreshKey s k, Option.none)
  | Op.refreshAll => (refreshAll s, Option.none)
  | Op.batchUpdate m => batchUpdateM s m
  | Op.batchDelete ks => batchDeleteM s ks

/-- State component of one dict-interface operation. -/
def step (s : St) (op : Op) : St := (stepE s op).1

/-- The cache-coherence shape invariant: every key of the in-memory value map
`_data` is marked in `_cached_keys`. -/
def cacheInvB (s : St) : Bool :=
  s.data.all (fun kv => s.cachedKeys.contains kv.1)

/-- Configuration of the SQL safety layer of the v1.2.0 core. -/
structure SafetyConfig where
  maxClauseLength : Option Nat
  strict : Bool

/-- Modelled from the spec: `_validate_clause` of the v1.2.0 core, which is
missing from src/ — only its callers (`unified.py` passes
`max_clause_length`) and its tests (`test_security_v120.py`,
`test_redos_protection`) are present. Per spec section 4.3, any free-form
clause longer than the configured limit (default 1000) is rejected with a
validation error, regardless of its content; a limit of `nil` disables the
check. -/
def validateClause (cfg : SafetyConfig) (clause : String) : Option PyErr :=
  match cfg.maxClauseLength with
  | some m =>
      if m < clause.length then
        some (PyErr.validationError "clause exceeds maximum length")
      else Option.none
  | Option.none => Option.none

/-- First validation error among a list of free-form fragments. -/
def validateClauses (cfg : SafetyConfig) : List String → Option PyErr
  | [] => Option.none
  | c :: rest =>
    match validateClause cfg c with
    | some e => some e
    | Option.none => validateClauses cfg rest

/-- The `", ".join(xs)` of Python, as a kernel-reducible recursion. -/
def joinWith (sep : String) : List String → String
  | [] => ""
  | [x] => x
  | x :: xs => x ++ sep ++ joinWith sep xs

/-- SELECT text built by the source `query` (core.py lines 653-672): column
list or `*`, then WHERE / ORDER BY / LIMIT appended when truthy. -/
def buildQuerySql (tableName : String) (columns : Option (List String))
    (whereC : Option String) (orderBy : Option String) (limit : Option Nat) : String :=
  let colsSql := match columns with
    | Option.none => "*"
    | some cs => joinWith ", " cs
  let sql := "SELECT " ++ colsSql ++ " FROM " ++ tableName
  let sql := match whereC with
    | some w => if w = "" then sql else sql ++ " WHERE " ++ w
    | Option.none => sql
  let sql := match orderBy with
    | some o => if o = "" then sql else sql ++ " ORDER BY " ++ o
    | Option.none => sql
  match limit with
  | some l => if l = 0 then sql else sql ++ " LIMIT " ++ toString l
  | Option.none => sql

/-- SELECT text built by the source `query_with_pagination` (core.py lines
1064-1080): WHERE, then GROUP BY, ORDER BY, LIMIT, OFFSET. -/
def buildPaginationSql (tableName : String) (columns : Option (List String))
    (whereC : Option String) (groupBy : Option String) (orderBy : Option String)
    (limit : Option Nat) (offset : Option Nat) : String :=
  let colsSql := match columns with
    | Option.none => "*"
    | some cs => joinWith ", " cs
  let sql := "SELECT " ++ colsSql ++ " FROM " ++ tableName
  let sql := match whereC with
    | some w => if w = "" then sql else sql ++ " WHERE " ++ w
    | Option.none => sql
  let sql := match groupBy with
    | some g => if g = "" then sql else sql ++ " GROUP BY " ++ g
    | Option.none => sql
  let sql := match orderBy with
    | some o => if o = "" then sql else sql ++ " ORDER BY " ++ o
    | Option.none => sql
  let sql := match limit with
    | some l => if l = 0 then sql else sql ++ " LIMIT " ++ toString l
    | Option.none => sql
  match offset with
  | some o => if o = 0 then sql else sql ++ " OFFSET " ++ toString o
  | Option.none => sql

/-- Modelled from the spec: the validation front-end the v1.2.0 `query`
applies to its user-supplied free-form fragments (column expressions, WHERE,
ORDER BY) before executing; on pass it issues the same SELECT text as the
source builder. The v1.2.0 `query` body is missing from src/. -/
def queryV120 (cfg : SafetyConfig) (tableName : String) (columns : Option (List String))
    (whereC : Option String) (orderBy : Option String) (limit : Option Nat) :
    Except PyErr String :=
  match validateClauses cfg (match columns with | some cs => cs | Option.none => []) with
  | some e => Except.error e
  | Option.none =>
    match (match whereC with | some w => validateClause cfg w | Option.none => Option.none) with
    | some e => Except.error e
    | Option.none =>
      match (match orderBy with | some o => validateClause cfg o | Option.none => Option.none) with
      | some e => Except.error e
      | Option.none => Except.ok (buildQuerySql tableName columns whereC orderBy limit)

/-- Modelled from the spec: the validation front-end of the v1.2.0
`query_with_pagination` (adds the GROUP BY fragment). -/
def queryWithPaginationV120 (cfg : SafetyConfig) (tableName : String)
    (columns : Option (List String)) (whereC : Option String) (groupBy : Option String)
    (orderBy : Option String) (limit : Option Nat) (offset : Option Nat) :
    Except PyErr String :=
  match validateClauses cfg (match columns with | some cs => cs | Option.none => []) with
  | some e => Except.error e
  | Option.none =>
    match (match whereC with | some w => validateClause cfg w | Option.none => Option.none) with
    | some e => Except.error e
    | Option.none =>
      match (match groupBy with | some g => validateClause cfg g | Option.none => Option.none) with
      | some e => Except.error e
      | Option.none =>
        match (match orderBy with | some o => validateClause cfg o | Option.none => Option.none) with
        | some e => Except.error e
        | Option.none =>
          Except.ok (buildPaginationSql tableName columns whereC groupBy orderBy limit offset)

/-- Modelled from the spec: the v1.2.0 parent handle, whose closed flag is
set by `close()` and consulted before every engine call. The v1.2.0 guard
(`NanaSQLiteClosedError`, `close`, `table`) is missing from src/ — only its
tests (`test_security_v120.py`, `test_connection_closed_error`) are present. -/
structure ParentHandle where
  core : St
  closed : Bool

/-- Modelled from the spec: a v1.2.0 sub-table handle created by
`table(name)` — it reuses the parent connection, has its own cache, and
reads the parent's shared closed flag. -/
structure SubHandle where
  core : St
  tableName : String

/-- Modelled from the spec: the connection guard of a parent handle. -/
def checkConnection (p : ParentHandle) : Option PyErr :=
  if p.closed then some (PyErr.closedError "Database connection is closed")
  else Option.none

/-- Modelled from the spec: the connection guard of a sub-table handle; the
message identifies the child table (test: `table: slave`). -/
def checkConnectionChild (p : ParentHandle) (c : SubHandle) : Option PyErr :=
  if p.closed then
    some (PyErr.closedError
      ("Parent database connection is closed (table: " ++ c.tableName ++ ")"))
  else Option.none

/-- Modelled from the spec: any dict-interface operation on a parent handle
first passes the connection guard, then runs as in the core. -/
def runOpParent (p : ParentHandle) (op : Op) : ParentHandle × Option PyErr :=
  match checkConnection p with
  | some e => (p, some e)
  | Option.none =>
    let r := stepE p.core op
    ({ p with core := r.1 }, r.2)

/-- Modelled from the spec: any dict-interface operation on a sub-table
handle first passes the child connection guard. -/
def runOpChild (p : ParentHandle) (c : SubHandle) (op : Op) : SubHandle × Option PyErr :=
  match checkConnectionChild p c with
  | some e => (c, some e)
  | Option.none =>
    let r := stepE c.core op
    ({ c with core := r.1 }, r.2)

/-- ASCII character class `[a-zA-Z_]` of the source identifier regex. -/
def isIdentStart (c : Char) : Bool :=
  (('a' ≤ c) && (c ≤ 'z')) || (('A' ≤ c) && (c ≤ 'Z')) || c = '_'

/-- ASCII character class `[a-zA-Z0-9_]` of the source identifier regex. -/
def isIdentChar (c : Char) : Bool :=
  isIdentStart c || (('0' ≤ c) && (c ≤ '9'))

/-- Character-level doubling of double quotes, the effect of
`identifier.replace(a double quote, two double quotes)`. -/
def doubleQuotesChars : List Char → List Char
  | [] => []
  | c :: cs => if c = '\"' then '\"' :: '\"' :: doubleQuotesChars cs
               else c :: doubleQuotesChars cs

/-- Static method `_sanitize_identifier`: reject the empty string and any
identifier not matching `^[a-zA-Z_][a-zA-Z0-9_]*$`; quote the survivor in
double quotes with internal double quotes doubled. -/
def sanitizeIdentifier (ident : String) : Except PyErr String :=
  match ident.data with
  | [] => Except.error (PyErr.valueError "Identifier cannot be empty")
  | c :: rest =>
    if isIdentStart c && rest.all isIdentChar then
      Except.ok (String.mk ('\"' :: (doubleQuotesChars ident.data ++ ['\"'])))
    else
      Except.error (PyErr.valueError "Invalid identifier")

/-- Whether the first character list starts with the second. -/
def startsWithChars : List Char → List Char → Bool
  | _, [] => true
  | [], _ :: _ => false
  | c :: cs, d :: ds => c = d && startsWithChars cs ds

/-- Whether the needle occurs as a contiguous run of the haystack. -/
def containsChars (needle : List Char) : List Char → Bool
  | [] => needle.isEmpty
  | c :: cs => startsWithChars (c :: cs) needle || containsChars needle cs

/-- Python substring containment `needle in hay`. -/
def strContains (hay needle : String) : Bool :=
  containsChars needle.data hay.data

/-- CREATE TABLE text built by the source `create_table` (core.py lines
584-595): column names and the table name are interpolated verbatim — the
identifier quoter is not applied. The `primary_key` branch mirrors the
source `any` check on upper-cased column definitions. -/
def buildCreateTableSql (tableName : String) (columns : List (String × String))
    (ifNotExists : Bool) (primaryKey : Option String) : String :=
  let ine := if ifNotExists then "IF NOT EXISTS " else ""
  let colDefs := columns.map (fun kv => kv.1 ++ " " ++ kv.2)
  let colDefs :=
    match primaryKey with
    | some pk =>
      if colDefs.any (fun col =>
          strContains col.toUpper pk.toUpper && strContains col.toUpper "PRIMARY KEY")
      then colDefs
      else colDefs ++ ["PRIMARY KEY (" ++ pk ++ ")"]
    | Option.none => colDefs
  "CREATE TABLE " ++ ine ++ tableName ++ " (" ++ joinWith ", " colDefs ++ ")"

theorem alookup_aset_self (l : List (String × PyVal)) (k : String) (v : PyVal) :
    alookup (aset l k v) k = some v := by
  induction l with
  | nil => simp [aset, alookup]
  | cons hd tl ih =>
    by_cases h : hd.1 = k
    · simp [aset, h, alookup]
    · simp [aset, h, alookup, ih]

theorem mem_of_mem_aset {l : List (String × PyVal)} {k : String} {v : PyVal}
    {kv : String × PyVal} (h : kv ∈ aset l k v) : kv = (k, v) ∨ kv ∈ l := by
  induction l with
  | nil => simp [aset] at h; simp [h]
  | cons hd tl ih =>
    by_cases hk : hd.1 = k
    · simp [aset, hk] at h
      rcases h with h | h
      · exact Or.inl h
      · exact Or.inr (List.mem_cons_of_mem _ h)
    · simp [aset, hk] at h
      rcases h with h | h
      · exact Or.inr (by simp [h])
      · rcases ih h with h1 | h1
        · exact Or.inl h1
        · exact Or.inr (List.mem_cons_of_mem _ h1)

theorem mem_adel_iff {l : List (String × PyVal)} {k : String} {kv : String × PyVal} :
    kv ∈ adel l k ↔ kv ∈ l ∧ kv.1 ≠ k := by
  simp [adel, List.mem_filter]

theorem alookup_adel_self (l : List (String × PyVal)) (k : String) :
    alookup (adel l k) k = Option.none := by
  induction l with
  | nil => simp [adel, alookup]
  | cons hd tl ih =>
    by_cases h : hd.1 = k
    · simpa [adel, h] using ih
    · simpa [adel, h, alookup] using ih

theorem alookup_eq_none_of_not_mem {l : List (String × PyVal)} {k : String}
    (h : ∀ kv ∈ l, kv.1 ≠ k) : alookup l k = Option.none := by
  induction l with
  | nil => rfl
  | cons hd tl ih =>
    have h1 : hd.1 ≠ k := h hd (List.mem_cons_self _ _)
    simp only [alookup, if_neg h1]
    exact ih (fun kv hkv => h kv (List.mem_cons_of_mem _ hkv))

theorem mem_kadd_iff {l : List String} {k x : String} :
    x ∈ kadd l k ↔ x = k ∨ x ∈ l := by
  by_cases h : k ∈ l
  · simp only [kadd, if_pos h]
    constructor
    · exact Or.inr
    · rintro (rfl | hx)
      · exact h
      · exact hx
  · simp [kadd, if_neg h]

theorem mem_kadd_self (l : List String) (k : String) : k ∈ kadd l k :=
  mem_kadd_iff.mpr (Or.inl rfl)

theorem mem_kdel_iff {l : List String} {k x : String} :
    x ∈ kdel l k ↔ x ∈ l ∧ x ≠ k := by
  simp [kdel, List.mem_filter]

theorem DBConn.view_execSet (db : DBConn) (k : String) (v : PyVal) :
    (db.execSet k v).view = aset db.view k v := by
  cases h : db.txn <;> simp [DBConn.execSet, DBConn.view, h]

theorem DBConn.view_execDel (db : DBConn) (k : String) :
    (db.execDel k).view = adel db.view k := by
  cases h : db.txn <;> simp [DBConn.execDel, DBConn.view, h]

theorem DBConn.execSet_of_txn_none {db : DBConn} (k : String) (v : PyVal)
    (h : db.txn = Option.none) :
    (db.execSet k v).committed = aset db.committed k v
    ∧ (db.execSet k v).txn = Option.none := by
  simp [DBConn.execSet, h]

theorem DBConn.execSet_of_txn_some {db : DBConn} {t : List (String × PyVal)}
    (k : String) (v : PyVal) (h : db.txn = some t) :
    (db.execSet k v).committed = db.committed
    ∧ (db.execSet k v).txn = some (aset t k v) := by
  simp [DBConn.execSet, h]

theorem DBConn.execDel_of_txn_some {db : DBConn} {t : List (String × PyVal)}
    (k : String) (h : db.txn = some t) :
    (db.execDel k).committed = db.committed
    ∧ (db.execDel k).txn = some (adel t k) := by
  simp [DBConn.execDel, h]

theorem DBConn.view_of_txn_none {db : DBConn} (h : db.txn = Option.none) :
    db.view = db.committed := by
  simp [DBConn.view, h]

/-- Superset relation between a value map and a key set. -/
def listInv (d : List (String × PyVal)) (ks : List String) : Prop :=
  ∀ kv ∈ d, kv.1 ∈ ks

/-- The cache-coherence shape invariant of a handle: every key of the
in-memory value map `_data` is marked in `_cached_keys`. -/
def cacheInv (s : St) : Prop :=
  listInv s.data s.cachedKeys

theorem listInv_nil (ks : List String) : listInv [] ks := by
  intro kv h
  cases h

theorem listInv_aset_kadd {d : List (String × PyVal)} {ks : List String}
    (k : String) (v : PyVal) (h : listInv d ks) :
    listInv (aset d k v) (kadd ks k) := by
  intro kv hkv
  rcases mem_of_mem_aset hkv with h1 | h1
  · subst h1
    exact mem_kadd_self ks k
  · exact mem_kadd_iff.mpr (Or.inr (h kv h1))

theorem listInv_kadd {d : List (String × PyVal)} {ks : List String}
    (k : String) (h : listInv d ks) : listInv d (kadd ks k) := by
  intro kv hkv
  exact mem_kadd_iff.mpr (Or.inr (h kv hkv))

theorem listInv_adel {d : List (String × PyVal)} {ks : List String}
    (k : String) (h : listInv d ks) : listInv (adel d k) ks := by
  intro kv hkv
  exact h kv (mem_adel_iff.mp hkv).1

theorem listInv_adel_kdel {d : List (String × PyVal)} {ks : List String}
    (k : String) (h : listInv d ks) : listInv (adel d k) (kdel ks k) := by
  intro kv hkv
  rcases mem_adel_iff.mp hkv with ⟨h1, h2⟩
  exact mem_kdel_iff.mpr ⟨h kv h1, h2⟩

theorem ensureCached_db (s : St) (k : String) :
    (ensureCached s k).2.db = s.db := by
  by_cases h : k ∈ s.cachedKeys
  · simp [ensureCached, h]
  · simp only [ensureCached, if_neg h, readFromDb]
    split <;> rfl

theorem ensureCached_data_of_mem (s : St) (k : String) (h : k ∈ s.cachedKeys) :
    (ensureCached s k).2 = s := by
  simp [ensureCached, h]

theorem cacheInv_ensureCached (s : St) (k : String) (h : cacheInv s) :
    cacheInv (ensureCached s k).2 := by
  by_cases hm : k ∈ s.cachedKeys
  · rw [ensureCached_data_of_mem s k hm]
    exact h
  · simp only [ensureCached, if_neg hm, readFromDb]
    split
    · exact listInv_kadd k h
    · exact listInv_aset_kadd k _ h

theorem cacheInv_setItem (s : St) (k : String) (v : PyVal) (h : cacheInv s) :
    cacheInv (setItem s k v).1 := by
  simp only [setItem, writeToDb]
  split
  · exact listInv_aset_kadd k v h
  · exact listInv_aset_kadd k v h

theorem cacheInv_getItem (s : St) (k : String) (h : cacheInv s) :
    cacheInv (getItem s k).1 := by
  have h1 := cacheInv_ensureCached s k h
  simp only [getItem]
  split
  · split <;> exact h1
  · exact h1

theorem cacheInv_delItem (s : St) (k : String) (h : cacheInv s) :
    cacheInv (delItem s k).1 := by
  have h1 := cacheInv_ensureCached s k h
  simp only [delItem, deleteFromDb]
  split
  · exact listInv_kadd k (listInv_adel k h1)
  · exact h1

theorem cacheInv_getDefault (s : St) (k : String) (d : PyVal) (h : cacheInv s) :
    cacheInv (getDefault s k d).1 := by
  have h1 := cacheInv_ensureCached s k h
  simp only [getDefault]
  split
  · split <;> exact h1
  · exact h1

theorem cacheInv_popM (s : St) (k : String) (h : cacheInv s) :
    cacheInv (popM s k).1 := by
  have h1 := cacheInv_ensureCached s k h
  simp only [popM, deleteFromDb]
  split
  · split
    · exact listInv_adel k h1
    · exact h1
  · exact h1

theorem cacheInv_setdefaultM (s : St) (k : String) (d : PyVal) (h : cacheInv s) :
    cacheInv (setdefaultM s k d).1 := by
  have h1 := cacheInv_ensureCached s k h
  simp only [setdefaultM]
  split
  · split <;> exact h1
  · have h2 := cacheInv_setItem (ensureCached s k).2 k d h1
    split
    next heq => rw [heq] at h2; exact h2
    next heq => rw [heq] at h2; exact h2

theorem cacheInv_updateM (m : List (String × PyVal)) : ∀ s : St, cacheInv s →
    cacheInv (updateM s m).1 := by
  induction m with
  | nil => intro s h; exact h
  | cons hd tl ih =>
    intro s h
    have h1 := cacheInv_setItem s hd.1 hd.2 h
    simp only [updateM]
    split
    next s1 heq => rw [heq] at h1; exact ih s1 h1
    next s1 e heq => rw [heq] at h1; exact h1

theorem cacheInv_loadAll (s : St) (h : cacheInv s) : cacheInv (loadAll s) := by
  simp only [loadAll]
  split
  · exact h
  · have hfold : ∀ (rows : List (String × PyVal)) (acc : St), cacheInv acc →
        cacheInv (rows.foldl
          (fun acc kv => { acc with data := aset acc.data kv.1 kv.2,
                                    cachedKeys := kadd acc.cachedKeys kv.1 }) acc) := by
      intro rows
      induction rows with
      | nil => intro acc hacc; exact hacc
      | cons hd tl ih =>
        intro acc hacc
        exact ih _ (listInv_aset_kadd hd.1 hd.2 hacc)
    exact hfold s.db.view s h

theorem cacheInv_refreshKey (s : St) (k : String) (h : cacheInv s) :
    cacheInv (refreshKey s k) := by
  simp only [refreshKey]
  exact cacheInv_ensureCached _ k (listInv_adel_kdel k h)

theorem cacheInv_batchUpdateGo (m : List (String × PyVal)) : ∀ s : St, cacheInv s →
    cacheInv (batchUpdateGo m s).1 := by
  induction m with
  | nil => intro s h; exact h
  | cons hd tl ih =>
    intro s h
    simp only [batchUpdateGo]
    split
    · exact ih _ (listInv_aset_kadd hd.1 hd.2 h)
    · exact h

theorem cacheInv_batchDeleteGo (ks : List String) : ∀ s : St, cacheInv s →
    cacheInv (batchDeleteGo ks s).1 := by
  induction ks with
  | nil => intro s h; exact h
  | cons hd tl ih =>
    intro s h
    simp only [batchDeleteGo]
    exact ih _ (listInv_adel_kdel hd h)

/-- Claim C9: every dict-interface operation preserves the invariant that the
cached-key set `_cached_keys` is a superset of the key set of the in-memory
value map `_data`; and after a successful `__delitem__` the key stays marked
as cached while absent from the value map, so a repeated indexed read raises
`KeyError` without touching the database (the handle state, including the
`_read_from_db` counter, is unchanged by that read). -/
theorem cache_keys_superset_invariant (s : St) (op : Op) (k : String)
    (hinv : cacheInv s) :
    cacheInv (step s op)
    ∧ ((delItem s k).2 = Option.none →
        (k ∈ (delItem s k).1.cachedKeys
        ∧ alookup (delItem s k).1.data k = Option.none
        ∧ getItem (delItem s k).1 k = ((delItem s k).1, Except.error (PyErr.keyError k)))) := by
  constructor
  · cases op with
    | set k v => exact cacheInv_setItem s k v hinv
    | get k => exact cacheInv_getItem s k hinv
    | getDefault k d => exact cacheInv_getDefault s k d hinv
    | del k => exact cacheInv_delItem s k hinv
    | contains k => exact cacheInv_ensureCached s k hinv
    | pop k => exact cacheInv_popM s k hinv
    | update m => exact cacheInv_updateM m s hinv
    | clear => exact listInv_nil _
    | setdefault k d => exact cacheInv_setdefaultM s k d hinv
    | loadAll => exact cacheInv_loadAll s hinv
    | values => exact cacheInv_loadAll s hinv
    | items => exact cacheInv_loadAll s hinv
    | toDict => exact cacheInv_loadAll s hinv
    | keys => exact hinv
    | len => exact hinv
    | isCached k => exact hinv
    | refreshKey k => exact cacheInv_refreshKey s k hinv
    | refreshAll => exact listInv_nil _
    | batchUpdate m =>
      show cacheInv (batchUpdateM s m).1
      simp only [batchUpdateM]
      split
      · exact hinv
      · exact cacheInv_batchUpdateGo m _ hinv
    | batchDelete ks =>
      show cacheInv (batchDeleteM s ks).1
      simp only [batchDeleteM]
      split
      · exact hinv
      · exact cacheInv_batchDeleteGo ks _ hinv
  · intro hdel
    by_cases hp : (ensureCached s k).1
    · have hmem : k ∈ (delItem s k).1.cachedKeys := by
        simp only [delItem, if_pos hp, deleteFromDb]
        exact mem_kadd_self _ _
      have hlook : alookup (delItem s k).1.data k = Option.none := by
        simp only [delItem, if_pos hp, deleteFromDb]
        exact alookup_adel_self _ _
      refine ⟨hmem, hlook, ?_⟩
      simp [getItem, ensureCached, hmem, hlook]
    · simp only [delItem, if_neg hp] at hdel
      cases hdel

theorem setItem_of_ser {s : St} {k : String} {v : PyVal} (h : serializable v = true) :
    (setItem s k v).2 = Option.none
    ∧ (setItem s k v).1.db = s.db.execSet k v
    ∧ (setItem s k v).1.data = aset s.data k v
    ∧ (setItem s k v).1.cachedKeys = kadd s.cachedKeys k
    ∧ (setItem s k v).1.dbReads = s.dbReads := by
  simp [setItem, writeToDb, h]

theorem setItem_of_not_ser {s : St} {k : String} {v : PyVal} (h : serializable v = false) :
    (setItem s k v).2 = some PyErr.typeError
    ∧ (setItem s k v).1.db = s.db
    ∧ (setItem s k v).1.data = aset s.data k v
    ∧ (setItem s k v).1.cachedKeys = kadd s.cachedKeys k := by
  simp [setItem, writeToDb, h]

theorem runBody_spec (body : List TxOp) : ∀ (s : St) (t : List (String × PyVal)),
    s.db.txn = some t →
    (runBody body s).2 = firstBodyErr body
    ∧ (runBody body s).1.db.committed = s.db.committed
    ∧ ((runBody body s).2 = Option.none →
        (runBody body s).1.db.txn = some (applyBody t body)) := by
  induction body with
  | nil =>
    intro s t ht
    exact ⟨rfl, rfl, fun _ => by simpa [runBody, applyBody] using ht⟩
  | cons hd tl ih =>
    intro s t ht
    cases hd with
    | set k v =>
      rcases hq : setItem s k v with ⟨s2, e2⟩
      by_cases hser : serializable v
      · have hf := setItem_of_ser (s := s) (k := k) (v := v) hser
        rw [hq] at hf
        have he2 : e2 = Option.none := hf.1
        subst he2
        have hdb : s2.db = s.db.execSet k v := hf.2.1
        have ht2 : s2.db.txn = some (aset t k v) := by
          rw [hdb]
          exact (DBConn.execSet_of_txn_some k v ht).2
        have hcom : s2.db.committed = s.db.committed := by
          rw [hdb]
          exact (DBConn.execSet_of_txn_some k v ht).1
        have hrec := ih s2 (aset t k v) ht2
        refine ⟨?_, ?_, ?_⟩
        · simpa [runBody, hq, firstBodyErr, hser] using hrec.1
        · simpa [runBody, hq, hcom] using hrec.2.1
        · intro hnone
          simp only [runBody, hq] at hnone ⊢
          simpa [applyBody] using hrec.2.2 hnone
      · have hf := setItem_of_not_ser (s := s) (k := k) (v := v) (by simpa using hser)
        rw [hq] at hf
        have he2 : e2 = some PyErr.typeError := hf.1
        subst he2
        have hdb : s2.db = s.db := hf.2.1
        refine ⟨?_, ?_, ?_⟩
        · simp [runBody, hq, firstBodyErr, hser]
        · simp [runBody, hq, hdb]
        · intro hnone
          simp [runBody, hq] at hnone
    | raiseErr e =>
      exact ⟨by simp [runBody, firstBodyErr], by simp [runBody], by simp [runBody]⟩

/-- Claim C7: the `transaction()` scoped context begins a transaction on
entry; on every exit path it commits when the body ran without an exception
(the pending writes become the committed table) and rolls back when the body
raised (the committed table is exactly what it was at entry), re-raising the
body's original exception; no transaction is left open. -/
theorem transaction_commit_rollback (s : St) (body : List TxOp)
    (htxn : s.db.txn = Option.none) :
    (withTransaction s body).2 = firstBodyErr body
    ∧ (withTransaction s body).1.db.txn = Option.none
    ∧ (firstBodyErr body = Option.none →
        (withTransaction s body).1.db.committed = applyBody s.db.committed body)
    ∧ (firstBodyErr body ≠ Option.none →
        (withTransaction s body).1.db.committed = s.db.committed) := by
  have hb : (beginTransaction s).2 = Option.none
      ∧ (beginTransaction s).1.db.txn = some s.db.committed
      ∧ (beginTransaction s).1.db.committed = s.db.committed := by
    simp [beginTransaction, DBConn.begin, htxn]
  rcases hq : beginTransaction s with ⟨s1, e1⟩
  rw [hq] at hb
  have he1 : e1 = Option.none := hb.1
  subst he1
  have hrun := runBody_spec body s1 s.db.committed hb.2.1
  rcases hr : runBody body s1 with ⟨s2, e2⟩
  rw [hr] at hrun
  have herr : e2 = firstBodyErr body := hrun.1
  have hcom : s2.db.committed = s.db.committed := by
    rw [hrun.2.1, hb.2.2]
  cases e2 with
  | none =>
    have htx2 : s2.db.txn = some (applyBody s.db.committed body) := hrun.2.2 rfl
    refine ⟨?_, ?_, ?_, ?_⟩
    · simp [withTransaction, hq, hr, commitM, DBConn.commit, htx2, ← herr]
    · simp [withTransaction, hq, hr, commitM, DBConn.commit, htx2]
    · intro _
      simp [withTransaction, hq, hr, commitM, DBConn.commit, htx2]
    · intro hne
      exact absurd herr.symm hne
  | some e =>
    refine ⟨?_, ?_, ?_, ?_⟩
    · simp [withTransaction, hq, hr, ← herr]
    · simp only [withTransaction, hq, hr]
      simp only [rollbackM, DBConn.rollback]
      split <;> simp_all
    · intro hnone
      rw [← herr] at hnone
      cases hnone
    · intro _
      simp only [withTransaction, hq, hr]
      simp only [rollbackM, DBConn.rollback]
      split <;> simp_all

/-- Witness for C7 at a concrete input: a one-write body on a fresh handle
commits the write; its hypothesis (no open transaction) holds definitionally. -/
theorem transaction_commit_rollback_witness :
    (withTransaction emptySt [TxOp.set "a" (PyVal.str "1")]).1.db.committed
      = [("a", PyVal.str "1")] := by
  have h := transaction_commit_rollback emptySt [TxOp.set "a" (PyVal.str "1")] rfl
  have := h.2.2.1 (by rfl)
  simpa [applyBody, emptySt, openHandle, aset] using this

/-- Claim C8: `keys()` returns exactly the key column of the table as seen by
the connection and leaves the handle state — in particular the cache and every
`is_cached` answer — completely unchanged. -/
theorem keys_no_cache_warm (s : St) :
    (keysM s).1 = s
    ∧ (keysM s).2 = s.db.view.map Prod.fst
    ∧ (∀ k, isCachedM (keysM s).1 k = isCachedM s k) := by
  exact ⟨rfl, rfl, fun _ => rfl⟩

theorem getItem_setItem_self (s : St) (k : String) (v : PyVal) :
    (getItem (setItem s k v).1 k).2 = Except.ok v := by
  have hmem : k ∈ (setItem s k v).1.cachedKeys := by
    simp only [setItem, writeToDb]
    split <;> exact mem_kadd_self _ _
  have hlook : alookup (setItem s k v).1.data k = some v := by
    simp only [setItem, writeToDb]
    split <;> exact alookup_aset_self _ _ _
  simp [getItem, ensureCached, hmem, hlook]

theorem getItem_openHandle_found (c : List (String × PyVal)) (k : String) (v : PyVal)
    (hl : alookup c k = some v) (hv : v ≠ PyVal.none) :
    (getItem (openHandle c) k).2 = Except.ok v := by
  cases v with
  | none => exact absurd rfl hv
  | bool b =>
    simp [getItem, ensureCached, readFromDb, DBConn.view, openHandle, hl, alookup_aset_self]
  | int n =>
    simp [getItem, ensureCached, readFromDb, DBConn.view, openHandle, hl, alookup_aset_self]
  | str t =>
    simp [getItem, ensureCached, readFromDb, DBConn.view, openHandle, hl, alookup_aset_self]
  | list xs =>
    simp [getItem, ensureCached, readFromDb, DBConn.view, openHandle, hl, alookup_aset_self]
  | dict kvs =>
    simp [getItem, ensureCached, readFromDb, DBConn.view, openHandle, hl, alookup_aset_self]
  | obj tag =>
    simp [getItem, ensureCached, readFromDb, DBConn.view, openHandle, hl, alookup_aset_self]

/-- Claim C1 (amended): for every key and serializable value, `set` succeeds,
a `get` on the same handle returns the structurally equal value, the row is
committed on disk, and — provided the value is not `None` — a handle
re-opened on the same file and table also returns it. (For `V = None` the
re-opened handle raises `KeyError`: a stored JSON `null` is
indistinguishable from a missing row on a fresh cache.) -/
theorem set_get_roundtrip (s : St) (k : String) (v : PyVal)
    (hser : serializable v = true) (htxn : s.db.txn = Option.none) :
    (setItem s k v).2 = Option.none
    ∧ (getItem (setItem s k v).1 k).2 = Except.ok v
    ∧ alookup (setItem s k v).1.db.committed k = some v
    ∧ (v ≠ PyVal.none →
        (getItem (openHandle (setItem s k v).1.db.committed) k).2 = Except.ok v) := by
  have hf := setItem_of_ser (s := s) (k := k) (v := v) hser
  have hcom : (setItem s k v).1.db.committed = aset s.db.committed k v := by
    rw [hf.2.1]
    exact (DBConn.execSet_of_txn_none k v htxn).1
  refine ⟨hf.1, getItem_setItem_self s k v, ?_, ?_⟩
  · rw [hcom]
    exact alookup_aset_self _ _ _
  · intro hv
    refine getItem_openHandle_found _ k v ?_ hv
    rw [hcom]
    exact alookup_aset_self _ _ _

/-- Witness for C1 at a nested unicode value: round trip on the same handle
and on a re-opened handle. -/
theorem set_get_roundtrip_witness :
    (getItem (setItem emptySt "user"
        (PyVal.dict [("name", PyVal.str "Nana"), ("age", PyVal.int 20)])).1 "user").2
      = Except.ok (PyVal.dict [("name", PyVal.str "Nana"), ("age", PyVal.int 20)])
    ∧ (getItem (openHandle
        (setItem emptySt "user"
          (PyVal.dict [("name", PyVal.str "Nana"), ("age", PyVal.int 20)])).1.db.committed)
        "user").2
      = Except.ok (PyVal.dict [("name", PyVal.str "Nana"), ("age", PyVal.int 20)]) := by
  have h := set_get_roundtrip emptySt "user"
    (PyVal.dict [("name", PyVal.str "Nana"), ("age", PyVal.int 20)])
    (by simp [serializable, serializableD]) rfl
  exact ⟨h.2.1, h.2.2.2 (by simp)⟩

/-- Counterexample to C1 as stated: `V = None` is JSON-serializable and
`set` stores the row (`null` on disk), the same handle's `get` returns it
from cache, yet a handle re-opened on the same file and table raises
`KeyError` instead of returning `V`. -/
theorem set_none_reopen_counterexample :
    (setItem emptySt "k" PyVal.none).2 = Option.none
    ∧ (getItem (setItem emptySt "k" PyVal.none).1 "k").2 = Except.ok PyVal.none
    ∧ alookup (setItem emptySt "k" PyVal.none).1.db.committed "k" = some PyVal.none
    ∧ (getItem (openHandle (setItem emptySt "k" PyVal.none).1.db.committed) "k").2
        = Except.error (PyErr.keyError "k") := by
  refine ⟨rfl, ?_, rfl, rfl⟩
  exact getItem_setItem_self emptySt "k" PyVal.none

theorem ensureCached_miss_absent {s : St} {k : String} (hnm : k ∉ s.cachedKeys)
    (hl : alookup s.db.view k = Option.none) :
    (ensureCached s k).1 = false
    ∧ (ensureCached s k).2.data = s.data
    ∧ (ensureCached s k).2.cachedKeys = kadd s.cachedKeys k
    ∧ (ensureCached s k).2.db = s.db := by
  simp [ensureCached, hnm, readFromDb, hl]

theorem ensureCached_miss_found {s : St} {k : String} {v : PyVal}
    (hnm : k ∉ s.cachedKeys) (hl : alookup s.db.view k = some v) (hv : v ≠ PyVal.none) :
    (ensureCached s k).1 = true
    ∧ (ensureCached s k).2.data = aset s.data k v
    ∧ (ensureCached s k).2.cachedKeys = kadd s.cachedKeys k
    ∧ (ensureCached s k).2.db = s.db := by
  cases v with
  | none => exact absurd rfl hv
  | bool b => simp [ensureCached, hnm, readFromDb, hl]
  | int n => simp [ensureCached, hnm, readFromDb, hl]
  | str t => simp [ensureCached, hnm, readFromDb, hl]
  | list xs => simp [ensureCached, hnm, readFromDb, hl]
  | dict kvs => simp [ensureCached, hnm, readFromDb, hl]
  | obj tag => simp [ensureCached, hnm, readFromDb, hl]

/-- Claim C3 (amended): `__setitem__` updates the in-memory cache first and
then performs the database write; the key is always installed in the cache,
even when the database write fails on a non-serializable value — in that
case the connection state is untouched but the cache retains the new value,
so a cached entry can differ from the decoded on-disk row. -/
theorem setitem_cache_first_db_second (s : St) (k : String) (v : PyVal) :
    alookup (setItem s k v).1.data k = some v
    ∧ k ∈ (setItem s k v).1.cachedKeys
    ∧ (serializable v = true →
        (setItem s k v).2 = Option.none
        ∧ alookup (setItem s k v).1.db.view k = some v)
    ∧ (serializable v = false →
        (setItem s k v).2 = some PyErr.typeError
        ∧ (setItem s k v).1.db = s.db) := by
  refine ⟨?_, ?_, ?_, ?_⟩
  · simp only [setItem, writeToDb]
    split <;> exact alookup_aset_self _ _ _
  · simp only [setItem, writeToDb]
    split <;> exact mem_kadd_self _ _
  · intro h
    have hf := setItem_of_ser (s := s) (k := k) (v := v) h
    refine ⟨hf.1, ?_⟩
    rw [hf.2.1, DBConn.view_execSet]
    exact alookup_aset_self _ _ _
  · intro h
    have hf := setItem_of_not_ser (s := s) (k := k) (v := v) h
    exact ⟨hf.1, hf.2.1⟩

/-- Witness for C3 at a concrete input: a successful write lands in both
cache and database view. -/
theorem setitem_cache_first_db_second_witness :
    alookup (setItem emptySt "k" (PyVal.str "x")).1.data "k" = some (PyVal.str "x")
    ∧ alookup (setItem emptySt "k" (PyVal.str "x")).1.db.view "k" = some (PyVal.str "x") := by
  have h := setitem_cache_first_db_second emptySt "k" (PyVal.str "x")
  exact ⟨h.1, (h.2.2.1 rfl).2⟩

/-- Counterexample to C3 as stated: a failed `set` of a non-serializable
value on an existing key leaves the new value in the cache (the cache was
touched before the failing database write), while the disk still holds the
old row — violating the claimed write order and the coherence consequence. -/
theorem setitem_failed_write_cache_touched_counterexample :
    (setItem (setItem emptySt "k" (PyVal.str "old")).1 "k" (PyVal.obj 0)).2
      = some PyErr.typeError
    ∧ alookup (setItem (setItem emptySt "k" (PyVal.str "old")).1 "k"
        (PyVal.obj 0)).1.data "k" = some (PyVal.obj 0)
    ∧ alookup (setItem (setItem emptySt "k" (PyVal.str "old")).1 "k"
        (PyVal.obj 0)).1.db.committed "k" = some (PyVal.str "old") :=
  ⟨rfl, rfl, rfl⟩

/-- Claim C10 (amended): `setdefault(K, D)` on a key absent from cache and
database stores `D` persistently (the row is visible in the database view,
and a re-opened handle returns `D` when `D` is not `None`) and returns `D`;
on a key present with a non-null stored value, or cached with a value, it
returns the existing value and performs no database write. (A stored JSON
`null` is treated as absent and gets overwritten.) -/
theorem setdefault_semantics (s : St) (k : String) (d w : PyVal) :
    (k ∉ s.cachedKeys → alookup s.db.view k = Option.none → serializable d = true →
        (setdefaultM s k d).2 = Except.ok d
        ∧ alookup (setdefaultM s k d).1.db.view k = some d
        ∧ (s.db.txn = Option.none → d ≠ PyVal.none →
            (getItem (openHandle (setdefaultM s k d).1.db.committed) k).2 = Except.ok d))
    ∧ (k ∉ s.cachedKeys → alookup s.db.view k = some w → w ≠ PyVal.none →
        (setdefaultM s k d).2 = Except.ok w
        ∧ (setdefaultM s k d).1.db = s.db)
    ∧ (k ∈ s.cachedKeys → alookup s.data k = some w →
        (setdefaultM s k d).2 = Except.ok w
        ∧ (setdefaultM s k d).1 = s) := by
  refine ⟨?_, ?_, ?_⟩
  · intro hnm hl hd
    have he := ensureCached_miss_absent hnm hl
    rcases hq : setItem (ensureCached s k).2 k d with ⟨s1, e1⟩
    have hf := setItem_of_ser (s := (ensureCached s k).2) (k := k) (v := d) hd
    rw [hq] at hf
    have he1 : e1 = Option.none := hf.1
    subst he1
    have hsd : setdefaultM s k d = (s1, Except.ok d) := by
      simp [setdefaultM, he.1, hq]
    have hdbv : alookup s1.db.view k = some d := by
      rw [hf.2.1, he.2.2.2, DBConn.view_execSet]
      exact alookup_aset_self _ _ _
    refine ⟨by rw [hsd], by rw [hsd]; exact hdbv, ?_⟩
    intro ht hdn
    have hcom : s1.db.committed = aset s.db.committed k d := by
      rw [hf.2.1, he.2.2.2]
      exact (DBConn.execSet_of_txn_none k d ht).1
    rw [hsd]
    refine getItem_openHandle_found _ k d ?_ hdn
    rw [hcom]
    exact alookup_aset_self _ _ _
  · intro hnm hl hw
    have he := ensureCached_miss_found hnm hl hw
    have hlook : alookup (ensureCached s k).2.data k = some w := by
      rw [he.2.1]
      exact alookup_aset_self _ _ _
    constructor
    · simp [setdefaultM, he.1, hlook]
    · have : (setdefaultM s k d).1 = (ensureCached s k).2 := by
        simp [setdefaultM, he.1, hlook]
      rw [this, he.2.2.2]
  · intro hm hw
    have he : ensureCached s k = ((alookup s.data k).isSome, s) := by
      simp [ensureCached, hm]
    constructor
    · simp [setdefaultM, he, hw]
    · simp [setdefaultM, he, hw]

/-- Witness for C10 at a concrete input: on a fresh handle the default is
stored and returned. -/
theorem setdefault_semantics_witness :
    (setdefaultM emptySt "k" (PyVal.str "x")).2 = Except.ok (PyVal.str "x")
    ∧ alookup (setdefaultM emptySt "k" (PyVal.str "x")).1.db.view "k"
        = some (PyVal.str "x") := by
  have h := (setdefault_semantics emptySt "k" (PyVal.str "x") PyVal.none).1
    (by simp [emptySt, openHandle]) rfl rfl
  exact ⟨h.1, h.2.1⟩

/-- Counterexample to C10 as stated: a key present on disk with a stored
JSON `null` is treated as absent — `setdefault` overwrites the row (a
database write on a present key) and returns the default instead of the
existing value. -/
theorem setdefault_null_row_counterexample :
    alookup (openHandle [("k", PyVal.none)]).db.view "k" = some PyVal.none
    ∧ (setdefaultM (openHandle [("k", PyVal.none)]) "k" (PyVal.str "x")).2
        = Except.ok (PyVal.str "x")
    ∧ alookup (setdefaultM (openHandle [("k", PyVal.none)]) "k"
        (PyVal.str "x")).1.db.committed "k" = some (PyVal.str "x") :=
  ⟨rfl, rfl, rfl⟩

/-- Whether every value of a batch mapping is JSON-serializable. -/
def allSer (m : List (String × PyVal)) : Bool :=
  m.all (fun kv => serializable kv.2)

theorem batchUpdateGo_spec (m : List (String × PyVal)) :
    ∀ (s : St) (t : List (String × PyVal)), s.db.txn = some t →
    (allSer m = true →
        (batchUpdateGo m s).2 = Option.none
        ∧ (batchUpdateGo m s).1.db.committed = applyUpdates t m
        ∧ (batchUpdateGo m s).1.db.txn = Option.none)
    ∧ (allSer m = false →
        (batchUpdateGo m s).2 = some PyErr.typeError
        ∧ (batchUpdateGo m s).1.db.committed = s.db.committed
        ∧ (batchUpdateGo m s).1.db.txn = Option.none) := by
  induction m with
  | nil =>
    intro s t ht
    constructor
    · intro _
      simp [batchUpdateGo, DBConn.commit, ht, applyUpdates]
    · intro h
      simp [allSer] at h
  | cons hd tl ih =>
    obtain ⟨k, v⟩ := hd
    intro s t ht
    by_cases hser : serializable v
    · have hstep : ∀ s2 : St, s2 = { { s with db := s.db.execSet k v } with
          data := aset s.data k v, cachedKeys := kadd s.cachedKeys k } →
          s2.db.txn = some (aset t k v) ∧ s2.db.committed = s.db.committed := by
        intro s2 hs2
        subst hs2
        exact ⟨(DBConn.execSet_of_txn_some k v ht).2, (DBConn.execSet_of_txn_some k v ht).1⟩
      have h2 := hstep _ rfl
      have hrec := ih _ (aset t k v) h2.1
      constructor
      · intro hall
        have hall2 : allSer tl = true := by
          simp [allSer] at hall ⊢
          exact fun a b hab => hall.2 a b hab
        have hr := hrec.1 hall2
        refine ⟨?_, ?_, ?_⟩
        · simpa [batchUpdateGo, hser] using hr.1
        · simpa [batchUpdateGo, hser, applyUpdates, h2.2] using hr.2.1
        · simpa [batchUpdateGo, hser] using hr.2.2
      · intro hall
        have hall2 : allSer tl = false := by
          simp [allSer, hser] at hall ⊢
          exact hall
        have hr := hrec.2 hall2
        refine ⟨?_, ?_, ?_⟩
        · simpa [batchUpdateGo, hser] using hr.1
        · have := hr.2.1
          rw [h2.2] at this
          simpa [batchUpdateGo, hser] using this
        · simpa [batchUpdateGo, hser] using hr.2.2
    · constructor
      · intro hall
        simp [allSer, hser] at hall
      · intro _
        refine ⟨?_, ?_, ?_⟩
        · simp [batchUpdateGo, hser, DBConn.rollback, ht]
        · simp [batchUpdateGo, hser, DBConn.rollback, ht]
        · simp [batchUpdateGo, hser, DBConn.rollback, ht]

theorem batchDeleteGo_spec (ks : List String) :
    ∀ (s : St) (t : List (String × PyVal)), s.db.txn = some t →
    (batchDeleteGo ks s).2 = Option.none
    ∧ (batchDeleteGo ks s).1.db.committed = applyDeletes t ks
    ∧ (batchDeleteGo ks s).1.db.txn = Option.none := by
  induction ks with
  | nil =>
    intro s t ht
    simp [batchDeleteGo, DBConn.commit, ht, applyDeletes]
  | cons hd tl ih =>
    intro s t ht
    have h2 : ({ { s with db := s.db.execDel hd } with
        data := adel s.data hd, cachedKeys := kdel s.cachedKeys hd } : St).db.txn
          = some (adel t hd)
        ∧ ({ { s with db := s.db.execDel hd } with
        data := adel s.data hd, cachedKeys := kdel s.cachedKeys hd } : St).db.committed
          = s.db.committed :=
      ⟨(DBConn.execDel_of_txn_some hd ht).2, (DBConn.execDel_of_txn_some hd ht).1⟩
    have hrec := ih _ (adel t hd) h2.1
    refine ⟨?_, ?_, ?_⟩
    · simpa [batchDeleteGo] using hrec.1
    · simpa [batchDeleteGo, applyDeletes, h2.2] using hrec.2.1
    · simpa [batchDeleteGo] using hrec.2.2

/-- Claim C2 (amended): `batch_update` runs all row writes inside a single
IMMEDIATE transaction: when any per-row write fails (a non-serializable
value) the database is rolled back, so no element of the mapping is in the
committed table and no transaction is left open; on success all elements are
applied. `batch_delete` likewise deletes all keys in one transaction.
However the in-memory cache entries applied before the failing row are NOT
reverted (see the counterexample). -/
theorem batch_update_db_atomicity (s : St) (m : List (String × PyVal)) (ks : List String)
    (htxn : s.db.txn = Option.none) :
    ((batchUpdateM s m).2.isSome →
        (batchUpdateM s m).1.db.committed = s.db.committed
        ∧ (batchUpdateM s m).1.db.txn = Option.none)
    ∧ ((batchUpdateM s m).2 = Option.none →
        (batchUpdateM s m).1.db.committed = applyUpdates s.db.committed m
        ∧ (batchUpdateM s m).1.db.txn = Option.none)
    ∧ ((batchDeleteM s ks).2 = Option.none
        ∧ (batchDeleteM s ks).1.db.committed = applyDeletes s.db.committed ks
        ∧ (batchDeleteM s ks).1.db.txn = Option.none) := by
  have hbegin : s.db.begin = ({ s.db with txn := some s.db.committed }, Option.none) := by
    simp [DBConn.begin, htxn]
  have hup : batchUpdateM s m
      = batchUpdateGo m { s with db := { s.db with txn := some s.db.committed } } := by
    simp [batchUpdateM, hbegin]
  have hdel : batchDeleteM s ks
      = batchDeleteGo ks { s with db := { s.db with txn := some s.db.committed } } := by
    simp [batchDeleteM, hbegin]
  have hgo := batchUpdateGo_spec m
    { s with db := { s.db with txn := some s.db.committed } } s.db.committed rfl
  have hgd := batchDeleteGo_spec ks
    { s with db := { s.db with txn := some s.db.committed } } s.db.committed rfl
  refine ⟨?_, ?_, ?_⟩
  · intro hsome
    rw [hup] at hsome ⊢
    cases hall : allSer m with
    | true =>
      rw [(hgo.1 hall).1] at hsome
      cases hsome
    | false =>
      exact ⟨(hgo.2 hall).2.1, (hgo.2 hall).2.2⟩
  · intro hnone
    rw [hup] at hnone ⊢
    cases hall : allSer m with
    | true =>
      exact ⟨(hgo.1 hall).2.1, (hgo.1 hall).2.2⟩
    | false =>
      rw [(hgo.2 hall).1] at hnone
      cases hnone
  · rw [hdel]
    exact hgd

/-- Witness for C2 at a concrete input: a successful one-row batch commits
the row, and a batch delete succeeds. -/
theorem batch_update_db_atomicity_witness :
    (batchUpdateM emptySt [("a", PyVal.str "1")]).1.db.committed = [("a", PyVal.str "1")]
    ∧ (batchDeleteM emptySt ["b"]).2 = Option.none := by
  have h := batch_update_db_atomicity emptySt [("a", PyVal.str "1")] ["b"] rfl
  refine ⟨?_, h.2.2.1⟩
  have h2 := (h.2.1 rfl).1
  simpa [applyUpdates, emptySt, openHandle, aset] using h2

/-- Counterexample to C2 as stated: a two-row batch whose second value is not
serializable rolls the database back (no row committed) but leaves the first
row's value in the in-memory cache — a subsequent `get` returns it, so an
element of the mapping is visible after the failed call. -/
theorem batch_update_cache_residue_counterexample :
    (batchUpdateM emptySt [("a", PyVal.str "x"), ("b", PyVal.obj 0)]).2
      = some PyErr.typeError
    ∧ (batchUpdateM emptySt [("a", PyVal.str "x"), ("b", PyVal.obj 0)]).1.db.committed = []
    ∧ alookup (batchUpdateM emptySt [("a", PyVal.str "x"), ("b", PyVal.obj 0)]).1.data "a"
        = some (PyVal.str "x")
    ∧ (getItem (batchUpdateM emptySt [("a", PyVal.str "x"), ("b", PyVal.obj 0)]).1 "a").2
        = Except.ok (PyVal.str "x") :=
  ⟨rfl, rfl, rfl, rfl⟩

/-- Claim C4: any user-supplied free-form clause (WHERE, ORDER BY, a free
SELECT column expression, or GROUP BY in the paginated variant) longer than
the configured `max_clause_length` makes the receiving operation fail with a
validation error, regardless of the clause content. -/
theorem clause_length_validation (cfg : SafetyConfig) (len : Nat) (c : String)
    (tbl : String) (hm : cfg.maxClauseLength = some len) (hlen : len < c.length) :
    queryV120 cfg tbl Option.none (some c) Option.none Option.none
      = Except.error (PyErr.validationError "clause exceeds maximum length")
    ∧ queryV120 cfg tbl Option.none Option.none (some c) Option.none
      = Except.error (PyErr.validationError "clause exceeds maximum length")
    ∧ queryV120 cfg tbl (some [c]) Option.none Option.none Option.none
      = Except.error (PyErr.validationError "clause exceeds maximum length")
    ∧ queryWithPaginationV120 cfg tbl Option.none Option.none (some c) Option.none
        Option.none Option.none
      = Except.error (PyErr.validationError "clause exceeds maximum length") := by
  have hv : validateClause cfg c
      = some (PyErr.validationError "clause exceeds maximum length") := by
    simp [validateClause, hm, hlen]
  refine ⟨?_, ?_, ?_, ?_⟩
  · simp [queryV120, validateClauses, hv]
  · simp [queryV120, validateClauses, hv]
  · simp [queryV120, validateClauses, hv]
  · simp [queryWithPaginationV120, validateClauses, hv]

/-- Witness for C4 at a concrete input: an 11-character WHERE clause against
a limit of 10 is rejected. -/
theorem clause_length_validation_witness :
    queryV120 { maxClauseLength := some 10, strict := true } "data" Option.none
        (some "key = 12345") Option.none Option.none
      = Except.error (PyErr.validationError "clause exceeds maximum length") := by
  exact (clause_length_validation { maxClauseLength := some 10, strict := true }
    10 "key = 12345" "data" rfl (by decide)).1

/-- Claim C5 (evaluated at the failing input): the source `create_table`
interpolates the table name and the column names verbatim — the SQL it emits
for a reserved-word column `group` contains the bare identifier and not the
quoter's output `"group"`, although `_sanitize_identifier` itself would
accept and quote that identifier. SQLite rejects the emitted statement with
a syntax error, so the scenario claimed by the spec fails on this code. -/
theorem create_table_reserved_word_unquoted :
    buildCreateTableSql "t" [("group", "TEXT"), ("name", "TEXT")] true Option.none
      = "CREATE TABLE IF NOT EXISTS t (group TEXT, name TEXT)"
    ∧ sanitizeIdentifier "group" = Except.ok "\"group\""
    ∧ strContains (buildCreateTableSql "t" [("group", "TEXT"), ("name", "TEXT")]
        true Option.none) "\"group\"" = false := by
  refine ⟨rfl, rfl, by decide⟩

/-- Claim C6: every dict-interface operation on a closed handle fails with
the typed closed-connection error and leaves the handle unchanged; an
operation on a sub-table handle whose parent is closed is rejected the same
way, with a message identifying the child's table. -/
theorem closed_handle_rejects_ops (p : ParentHandle) (c : SubHandle) (op : Op)
    (h : p.closed = true) :
    (runOpParent p op).1 = p
    ∧ (runOpParent p op).2 = some (PyErr.closedError "Database connection is closed")
    ∧ (runOpChild p c op).1 = c
    ∧ (runOpChild p c op).2 = some (PyErr.closedError
        ("Parent database connection is closed (table: " ++ c.tableName ++ ")")) := by
  refine ⟨?_, ?_, ?_, ?_⟩ <;>
    simp [runOpParent, runOpChild, checkConnection, checkConnectionChild, h]

/-- Witness for C6 at a concrete input: a write on a closed parent and on the
child `slave` of a closed parent both fail with the typed error. -/
theorem closed_handle_rejects_ops_witness :
    (runOpParent { core := emptySt, closed := true } (Op.set "key" (PyVal.str "value"))).2
      = some (PyErr.closedError "Database connection is closed")
    ∧ (runOpChild { core := emptySt, closed := true } { core := emptySt, tableName := "slave" }
        (Op.set "key" (PyVal.str "value"))).2
      = some (PyErr.closedError "Parent database connection is closed (table: slave)") := by
  have h := closed_handle_rejects_ops { core := emptySt, closed := true }
    { core := emptySt, tableName := "slave" } (Op.set "key" (PyVal.str "value")) rfl
  exact ⟨h.2.1, h.2.2.2⟩

/-- Witness for C9 at a concrete input: the empty handle satisfies the
invariant and one write preserves it. -/
theorem cache_keys_superset_invariant_witness :
    cacheInv (step emptySt (Op.set "a" (PyVal.str "x"))) :=
  (cache_keys_superset_invariant emptySt (Op.set "a" (PyVal.str "x")) "a"
    (listInv_nil [])).1

end NanaSQLite
